import Mathlib

/-!
Verification development for the LaFrance French text-to-speech utility
(src/config.py and src/main.py).

The repository's reproducible core is shallowly embedded here:
  * Python string helpers used by the code (whitespace classes, strip,
    split, endswith, os.path.join) over `List Char`;
  * the filename sanitizer `FrenchTTS._sanitize_filename`;
  * the MD5-based cache-key derivation `FrenchTTS._get_cache_key`
    (hashlib.md5 is implemented in full over UTF-8 byte lists);
  * the JSON persistence of the cache (`json.dump(..., ensure_ascii=False,
    indent=2)` and the object-of-strings fragment of `json.load`);
  * the voice table and constructor defaults of `FrenchTTS.__init__`;
  * the `speak` orchestration and `clear_cache`, as pure state transformers
    that also emit an event trace (cache mutations, cache-file writes,
    synthesis invocations, playback triggers).

Machine-word arithmetic is `Nat` with explicit `% 2 ^ 32` reductions.
File-system state is explicit: a list of existing audio paths, and an
`Option String` holding the persisted cache file's content.
-/

namespace LaFrance

/-- Cache mapping: insertion-ordered association list of 16-hex-char keys to
file paths, modelling the Python dict `FrenchTTS.cache`. -/
abbrev Cache := List (String × String)

/-! ## Python character classes and string helpers

The embedding models Python's Unicode classes over the ranges the program
exercises (Basic Latin and Latin-1, which cover French text).  Code points
at or above U+0100 are conservatively classified as word characters unless
they are Unicode whitespace; the spec's example inputs lie below U+0100. -/

/-- Models Python `str.isspace` (the class matched by the regex `\s` and
used by `str.split()` / `str.strip()`). -/
def pyIsSpace (c : Char) : Bool :=
  c = ' ' || c = '\t' || c = '\n' || c = '\x0b' || c = '\x0c' || c = '\r' ||
  (0x1c ≤ c.toNat && c.toNat ≤ 0x1f) || c.toNat = 0x85 || c.toNat = 0xa0 ||
  c.toNat = 0x1680 || (0x2000 ≤ c.toNat && c.toNat ≤ 0x200a) ||
  c.toNat = 0x2028 || c.toNat = 0x2029 || c.toNat = 0x202f ||
  c.toNat = 0x205f || c.toNat = 0x3000

/-- Letters, modelling Python `str.isalpha` over ASCII and Latin-1 exactly
(`U+00AA`, `U+00B5`, `U+00BA`, `U+00C0`–`U+00FF` except the two operators
`U+00D7` and `U+00F7`); code points at or above `U+0100` that are not
modelled whitespace are treated as letters. -/
def isLetterModel (c : Char) : Bool :=
  let n := c.toNat
  (97 ≤ n && n ≤ 122) || (65 ≤ n && n ≤ 90) ||
  (0xc0 ≤ n && n ≤ 0xff && n ≠ 0xd7 && n ≠ 0xf7) ||
  n = 0xaa || n = 0xb5 || n = 0xba ||
  (0x100 ≤ n && !pyIsSpace c)

/-- Decimal digits `0`–`9`. -/
def isDigitModel (c : Char) : Bool :=
  48 ≤ c.toNat && c.toNat ≤ 57

/-- The Latin-1 numeric characters beyond the decimal digits, matched by
Python `str.isdigit`/`str.isnumeric`: the superscripts one, two and three
(`U+00B9`, `U+00B2`, `U+00B3`) and the vulgar fractions (`U+00BC`–`U+00BE`).
Python's alphanumeric class — and hence the regex `\w` — includes them. -/
def isNumericModel (c : Char) : Bool :=
  c.toNat = 0xb2 || c.toNat = 0xb3 || c.toNat = 0xb9 ||
  (0xbc ≤ c.toNat && c.toNat ≤ 0xbe)

/-- Models Python `str.isalnum` (`isalpha` or `isdecimal` or `isdigit` or
`isnumeric`) exactly over ASCII and Latin-1: letters, decimal digits, and
the Latin-1 numeric characters. -/
def isAlnumModel (c : Char) : Bool :=
  isLetterModel c || isDigitModel c || isNumericModel c

/-- Models the Python regex class `\w`: alphanumerics plus the underscore. -/
def pyIsWordChar (c : Char) : Bool :=
  isAlnumModel c || c = '_'

/-- Characters kept by the first substitution in `_sanitize_filename`
(main.py line 130), the complement of the regex `[^\w\s\-\']`. -/
def keepChar (c : Char) : Bool :=
  pyIsWordChar c || pyIsSpace c || c = '-' || c = '\''

/-- Models `re.sub(r'\s+', ' ', ·)` (main.py line 132): every maximal run
of whitespace becomes a single space. -/
def collapseWs : List Char → List Char
  | [] => []
  | [c] => if pyIsSpace c then [' '] else [c]
  | c1 :: c2 :: rest =>
    if pyIsSpace c1 && pyIsSpace c2 then collapseWs (c2 :: rest)
    else (if pyIsSpace c1 then ' ' else c1) :: collapseWs (c2 :: rest)

/-- Models Python `str.strip()`: drop leading and trailing whitespace. -/
def pyStrip (l : List Char) : List Char :=
  (((l.dropWhile pyIsSpace).reverse.dropWhile pyIsSpace)).reverse

/-- One step of the right fold implementing `str.split()`. -/
def pySplitStep (c : Char) (acc : List (List Char)) : List (List Char) :=
  if pyIsSpace c then [] :: acc
  else (c :: acc.headD []) :: acc.tail

/-- Models Python `str.split()` with no argument: split on whitespace runs,
dropping empty fragments. -/
def pySplit (l : List Char) : List (List Char) :=
  (l.foldr pySplitStep [[]]).filter (fun w => !w.isEmpty)

/-- Drop all trailing underscores, modelling `str.rstrip('_')`. -/
def dropTrailingUnd (l : List Char) : List Char :=
  (l.reverse.dropWhile (fun c => c = '_')).reverse

/-- Models Python `str.endswith`, via the list-suffix relation on the
character data. -/
def pyEndsWith (s suffixStr : String) : Bool :=
  decide (suffixStr.data <:+ s.data)

/-- Models Python `str.startswith`. -/
def pyStartsWith (s p : String) : Bool :=
  decide (p.data <+: s.data)

/-- Models `os.path.join(a, b)` for POSIX paths as used by the program:
an absolute second component replaces the first; otherwise the components
are joined with a single separator. -/
def pathJoin (a b : String) : String :=
  if pyStartsWith b "/" then b
  else if a = "" then b
  else if pyEndsWith a "/" then a ++ b
  else a ++ "/" ++ b

/-! ## Filename sanitization (`FrenchTTS._sanitize_filename`, main.py 125-139) -/

/-- Character-list core of `_sanitize_filename` with the default
`max_length=30` (the only call site, main.py line 178, uses the default):
keep `[\w\s\-\']`, collapse whitespace, strip, first four words joined by
underscores, truncate to 30 characters stripping trailing underscores when
the limit was exceeded. -/
def sanitizeChars (text : String) : List Char :=
  let cleaned := text.data.filter keepChar
  let collapsed := collapseWs cleaned
  let stripped := pyStrip collapsed
  let words := (pySplit stripped).take 4
  let result := List.intercalate ['_'] words
  if result.length > 30 then dropTrailingUnd (result.take 30) else result

/-- `FrenchTTS._sanitize_filename`: the sanitized slug, or the placeholder
`"audio"` when sanitization yields the empty string. -/
def sanitizeFilename (text : String) : String :=
  let r := sanitizeChars text
  if r.isEmpty then "audio" else String.mk r

/-- The sanitization rule as the spec words it, parameterized by the class
of characters kept by the first step.  The spec's "collapse runs of
whitespace to a single space; trim; take at most the first 4
whitespace-separated words" is the same collapse/strip/split pipeline. -/
def sanitizeRule (keep : Char → Bool) (text : String) : String :=
  let cleaned := text.data.filter keep
  let collapsed := collapseWs cleaned
  let stripped := pyStrip collapsed
  let words := (pySplit stripped).take 4
  let result := List.intercalate ['_'] words
  let result2 := if result.length > 30 then dropTrailingUnd (result.take 30) else result
  if result2.isEmpty then "audio" else String.mk result2

/-- The keep-class exactly as claim C2 states it: letters, digits,
whitespace, hyphen, apostrophe — without the underscore. -/
def specKeepOriginal (c : Char) : Bool :=
  isLetterModel c || isDigitModel c || pyIsSpace c || c = '-' || c = '\''

/-- The keep-class amended to match the code: the regex `\w` retains
Python's full alphanumeric class — letters, decimal digits, and numeric
characters such as the vulgar fractions — plus the underscore. -/
def specKeepAmended (c : Char) : Bool :=
  isLetterModel c || isDigitModel c || isNumericModel c || c = '_' ||
  pyIsSpace c || c = '-' || c = '\''

/-- Claim C2's sanitization rule as stated. -/
def sanitizeSpecRule (text : String) : String :=
  sanitizeRule specKeepOriginal text

/-- The sanitization rule with the underscore added to the kept set. -/
def sanitizeSpecAmended (text : String) : String :=
  sanitizeRule specKeepAmended text

/-! ## UTF-8 encoding

`_get_cache_key` hashes `content.encode('utf-8')`; bytes are `Nat` values
below 256. -/

/-- UTF-8 encoding of one scalar value. -/
def utf8EncodeChar (c : Char) : List Nat :=
  let n := c.toNat
  if n < 0x80 then [n]
  else if n < 0x800 then [0xc0 + n / 64, 0x80 + n % 64]
  else if n < 0x10000 then
    [0xe0 + n / 4096, 0x80 + n / 64 % 64, 0x80 + n % 64]
  else
    [0xf0 + n / 262144, 0x80 + n / 4096 % 64, 0x80 + n / 64 % 64, 0x80 + n % 64]

/-- Models Python `str.encode('utf-8')` as a byte list. -/
def utf8Encode (s : String) : List Nat :=
  (s.data.map utf8EncodeChar).flatten

/-! ## MD5 (hashlib.md5), over `Nat` with explicit reduction mod `2 ^ 32` -/

/-- Reduce modulo `2 ^ 32`. -/
def m32 (n : Nat) : Nat := n % 4294967296

/-- Bitwise complement within 32 bits. -/
def m32Not (x : Nat) : Nat := Nat.xor x 4294967295

/-- Left rotation of a 32-bit word (the argument is already reduced). -/
def rotl32 (x s : Nat) : Nat := m32 (x * 2 ^ s) + x / 2 ^ (32 - s)

/-- MD5 round function F. -/
def md5F (b c d : Nat) : Nat := Nat.lor (Nat.land b c) (Nat.land (m32Not b) d)

/-- MD5 round function G. -/
def md5G (b c d : Nat) : Nat := Nat.lor (Nat.land d b) (Nat.land (m32Not d) c)

/-- MD5 round function H. -/
def md5H (b c d : Nat) : Nat := Nat.xor b (Nat.xor c d)

/-- MD5 round function I. -/
def md5I (b c d : Nat) : Nat := Nat.xor c (Nat.lor b (m32Not d))

/-- The 64 MD5 sine-derived constants. -/
def md5K : List Nat :=
  [0xd76aa478, 0xe8c7b756, 0x242070db, 0xc1bdceee,
   0xf57c0faf, 0x4787c62a, 0xa8304613, 0xfd469501,
   0x698098d8, 0x8b44f7af, 0xffff5bb1, 0x895cd7be,
   0x6b901122, 0xfd987193, 0xa679438e, 0x49b40821,
   0xf61e2562, 0xc040b340, 0x265e5a51, 0xe9b6c7aa,
   0xd62f105d, 0x02441453, 0xd8a1e681, 0xe7d3fbc8,
   0x21e1cde6, 0xc33707d6, 0xf4d50d87, 0x455a14ed,
   0xa9e3e905, 0xfcefa3f8, 0x676f02d9, 0x8d2a4c8a,
   0xfffa3942, 0x8771f681, 0x6d9d6122, 0xfde5380c,
   0xa4beea44, 0x4bdecfa9, 0xf6bb4b60, 0xbebfbc70,
   0x289b7ec6, 0xeaa127fa, 0xd4ef3085, 0x04881d05,
   0xd9d4d039, 0xe6db99e5, 0x1fa27cf8, 0xc4ac5665,
   0xf4292244, 0x432aff97, 0xab9423a7, 0xfc93a039,
   0x655b59c3, 0x8f0ccc92, 0xffeff47d, 0x85845dd1,
   0x6fa87e4f, 0xfe2ce6e0, 0xa3014314, 0x4e0811a1,
   0xf7537e82, 0xbd3af235, 0x2ad7d2bb, 0xeb86d391]

/-- The 64 MD5 per-round left-rotation amounts. -/
def md5S : List Nat :=
  [7, 12, 17, 22, 7, 12, 17, 22, 7, 12, 17, 22, 7, 12, 17, 22,
   5, 9, 14, 20, 5, 9, 14, 20, 5, 9, 14, 20, 5, 9, 14, 20,
   4, 11, 16, 23, 4, 11, 16, 23, 4, 11, 16, 23, 4, 11, 16, 23,
   6, 10, 15, 21, 6, 10, 15, 21, 6, 10, 15, 21, 6, 10, 15, 21]

/-- One MD5 round over the running state, given the block's 16 words. -/
def md5Round (msg : List Nat) (st : Nat × Nat × Nat × Nat) (i : Nat) :
    Nat × Nat × Nat × Nat :=
  let a := st.1
  let b := st.2.1
  let c := st.2.2.1
  let d := st.2.2.2
  let f :=
    if i < 16 then md5F b c d
    else if i < 32 then md5G b c d
    else if i < 48 then md5H b c d
    else md5I b c d
  let g :=
    if i < 16 then i
    else if i < 32 then (5 * i + 1) % 16
    else if i < 48 then (3 * i + 5) % 16
    else (7 * i) % 16
  let tmp := m32 (a + f + md5K.getD i 0 + msg.getD g 0)
  (d, m32 (b + rotl32 tmp (md5S.getD i 0)), b, c)

/-- Process one 512-bit block (as 16 little-endian words). -/
def md5Block (st : Nat × Nat × Nat × Nat) (msg : List Nat) :
    Nat × Nat × Nat × Nat :=
  let r := (List.range 64).foldl (md5Round msg) st
  (m32 (st.1 + r.1), m32 (st.2.1 + r.2.1),
   m32 (st.2.2.1 + r.2.2.1), m32 (st.2.2.2 + r.2.2.2))

/-- Little-endian serialization of the 8-byte bit-length field. -/
def lenBytes64 (n : Nat) : List Nat :=
  [n % 256, n / 2 ^ 8 % 256, n / 2 ^ 16 % 256, n / 2 ^ 24 % 256,
   n / 2 ^ 32 % 256, n / 2 ^ 40 % 256, n / 2 ^ 48 % 256, n / 2  ^ 56 % 256]

/-- MD5 padding: a `0x80` byte, zeros to 56 mod 64, then the bit length. -/
def padMd5 (msg : List Nat) : List Nat :=
  let len := msg.length
  let zeros := (119 - len % 64) % 64
  msg ++ 0x80 :: List.replicate zeros 0 ++ lenBytes64 (len * 8 % 2 ^ 64)

/-- Split a byte list into 64-byte chunks; fuel-driven so that it reduces
in the kernel (the fuel is always sufficient at the call site). -/
def toBlocksF : Nat → List Nat → List (List Nat)
  | 0, _ => []
  | _, [] => []
  | fuel + 1, l => l.take 64 :: toBlocksF fuel (l.drop 64)

/-- The 16 little-endian words of one 64-byte block. -/
def md5Words (block : List Nat) : List Nat :=
  (List.range 16).map fun j =>
    block.getD (4 * j) 0 + 256 * block.getD (4 * j + 1) 0 +
    65536 * block.getD (4 * j + 2) 0 + 16777216 * block.getD (4 * j + 3) 0

/-- Little-endian bytes of a 32-bit word. -/
def wordLEBytes (w : Nat) : List Nat :=
  [w % 256, w / 2 ^ 8 % 256, w / 2 ^ 16 % 256, w / 2 ^ 24 % 256]

/-- The 16-byte MD5 digest of a byte list. -/
def md5Bytes (msg : List Nat) : List Nat :=
  let blocks := toBlocksF (msg.length + 65) (padMd5 msg)
  let st := blocks.foldl (fun s b => md5Block s (md5Words b))
    (0x67452301, 0xefcdab89, 0x98badcfe, 0x10325476)
  wordLEBytes st.1 ++ wordLEBytes st.2.1 ++
  wordLEBytes st.2.2.1 ++ wordLEBytes st.2.2.2

/-- The sixteen lowercase hexadecimal digits. -/
def hexDigits : List Char :=
  "0123456789abcdef".data

/-- Lowercase hexadecimal digit of `n % 16`. -/
def hexDigitChar (n : Nat) : Char :=
  hexDigits.getD (n % 16) '0'

/-- Two-digit lowercase hex rendering of one byte (`'%02x'`). -/
def byteHex (b : Nat) : List Char :=
  [hexDigitChar (b / 16), hexDigitChar (b % 16)]

/-- `hashlib.md5(...).hexdigest()` as a character list (32 hex digits). -/
def md5Hex (msg : List Nat) : List Char :=
  ((md5Bytes msg).map byteHex).flatten

/-! ## JSON persistence of the cache

`_save_cache` writes `json.dump(self.cache, f, ensure_ascii=False,
indent=2)`; `_load_cache` reads it back with `json.load`, returning `{}`
when the file is missing or its content does not parse (main.py 82-98).
The parser below implements the object-of-strings fragment of JSON that
the persisted cache file inhabits (arbitrary whitespace between tokens,
full string escape handling); persisted content that is valid JSON of a
different shape lies outside the embedding's data model. -/

/-- The whitespace accepted between JSON tokens. -/
def isJsonWs (c : Char) : Bool :=
  c = ' ' || c = '\t' || c = '\n' || c = '\r'

/-- Skip JSON whitespace. -/
def skipWs (l : List Char) : List Char :=
  l.dropWhile isJsonWs

/-- Escape one character the way `json.dump(..., ensure_ascii=False)`
does: backslash, double quote, the five short escapes, `\u00XX` for the
remaining control characters, and everything else verbatim. -/
def jsonEscapeChar (c : Char) : List Char :=
  if c = '\x22' then ['\\', '\x22']
  else if c = '\\' then ['\\', '\\']
  else if c = '\x08' then ['\\', 'b']
  else if c = '\x09' then ['\\', 't']
  else if c = '\x0a' then ['\\', 'n']
  else if c = '\x0c' then ['\\', 'f']
  else if c = '\x0d' then ['\\', 'r']
  else if c.toNat < 32 then
    '\\' :: 'u' :: '0' :: '0' :: hexDigitChar (c.toNat / 16) :: [hexDigitChar (c.toNat % 16)]
  else [c]

/-- A JSON string literal: quote, escaped characters, quote. -/
def jsonQuoteStr (s : String) : List Char :=
  '\x22' :: (s.data.map jsonEscapeChar).flatten ++ ['\x22']

/-- One `"key": "value"` member. -/
def dumpEntryChars (k v : String) : List Char :=
  jsonQuoteStr k ++ ':' :: ' ' :: jsonQuoteStr v

/-- The members of a non-empty object as `json.dump` lays them out with
`indent=2`: each member on its own line behind two spaces, separated by
commas. -/
def dumpMembersChars : Cache → List Char
  | [] => []
  | [(k, v)] => '\n' :: ' ' :: ' ' :: dumpEntryChars k v
  | (k, v) :: e :: t =>
    '\n' :: ' ' :: ' ' :: (dumpEntryChars k v ++ ',' :: dumpMembersChars (e :: t))

/-- `json.dump(cache, f, ensure_ascii=False, indent=2)` as a string. -/
def dumpCache : Cache → String
  | [] => String.mk ['\x7b', '\x7d']
  | m => String.mk ('\x7b' :: (dumpMembersChars m ++ ['\n', '\x7d']))

/-- Value of a hexadecimal digit, accepting both cases (code points 48-57
are the decimal digits, 97-102 and 65-70 the two letter ranges). -/
def hexVal (c : Char) : Option Nat :=
  let n := c.toNat
  if 48 ≤ n && n ≤ 57 then some (n - 48)
  else if 97 ≤ n && n ≤ 102 then some (n - 87)
  else if 65 ≤ n && n ≤ 70 then some (n - 55)
  else none

/-- Decode one single-character JSON escape. -/
def jsonUnescape1 (c : Char) : Option Char :=
  if c = '\x22' then some '\x22'
  else if c = '\\' then some '\\'
  else if c = '/' then some '/'
  else if c = 'b' then some '\x08'
  else if c = 'f' then some '\x0c'
  else if c = 'n' then some '\x0a'
  else if c = 'r' then some '\x0d'
  else if c = 't' then some '\x09'
  else none

/-- Parse the body of a JSON string literal after the opening quote,
returning the decoded characters and the input after the closing quote.
As in strict-mode `json.load`, unescaped control characters are
rejected. -/
def parseStrBodyF : Nat → List Char → Option (List Char × List Char)
  | 0, _ => none
  | _ + 1, [] => none
  | fuel + 1, c :: rest =>
    if c = '\x22' then some ([], rest)
    else if c = '\\' then
      match rest with
      | 'u' :: h1 :: h2 :: h3 :: h4 :: rest2 => do
        let a ← hexVal h1
        let b ← hexVal h2
        let c1 ← hexVal h3
        let d ← hexVal h4
        let (s, r) ← parseStrBodyF fuel rest2
        some (Char.ofNat (4096 * a + 256 * b + 16 * c1 + d) :: s, r)
      | e :: rest2 => do
        let c1 ← jsonUnescape1 e
        let (s, r) ← parseStrBodyF fuel rest2
        some (c1 :: s, r)
      | [] => none
    else if c.toNat < 32 then none
    else do
      let (s, r) ← parseStrBodyF fuel rest
      some (c :: s, r)

/-- Run the string-body parser with its own length as fuel: every step
consumes at least one character, so the fuel never runs out. -/
def parseStrBody (l : List Char) : Option (List Char × List Char) :=
  parseStrBodyF l.length l

/-- Parse a JSON string literal. -/
def parseJStr : List Char → Option (String × List Char)
  | '\x22' :: rest => do
    let (cs, r) ← parseStrBody rest
    some (String.mk cs, r)
  | _ => none

/-- Parse the members of a non-empty object, after the opening brace,
up to and including the closing brace.  The fuel only bounds the member
count; the call site passes the input length, which always suffices. -/
def parseMembers : Nat → List Char → Option (Cache × List Char)
  | 0, _ => none
  | fuel + 1, l => do
    let (k, r1) ← parseJStr (skipWs l)
    match skipWs r1 with
    | ':' :: r2 => do
      let (v, r3) ← parseJStr (skipWs r2)
      match skipWs r3 with
      | ',' :: r4 => do
        let (ms, r5) ← parseMembers fuel r4
        some ((k, v) :: ms, r5)
      | '\x7d' :: r4 => some ([(k, v)], r4)
      | _ => none
    | _ => none

/-- Parse a complete cache file: one JSON object of string members,
surrounded by optional whitespace. -/
def parseCache (s : String) : Option Cache :=
  match skipWs s.data with
  | '\x7b' :: r =>
    match skipWs r with
    | '\x7d' :: r2 => if skipWs r2 = [] then some [] else none
    | _ =>
      match parseMembers s.data.length r with
      | some (m, r3) => if skipWs r3 = [] then some m else none
      | none => none
  | _ => none

/-- The mapping reconstructed from a persisted cache-file state, used by
the persistence invariants to compare on-disk content with the in-memory
mapping: a missing file, or content outside the object-of-strings cache
format, counts as the empty mapping.  (The faithful model of what
`_load_cache` returns to its caller, distinguishing content on which
`json.load` raises from valid JSON of another shape, is `loadCache`
below.) -/
def loadOf : Option String → Cache
  | none => []
  | some s => (parseCache s).getD []

/-! ## Full JSON documents and `_load_cache`

`_load_cache`'s bare `except` fires only when `json.load` raises: content
that is valid JSON of a shape other than an object of strings (for
example `[1, 2]` or an object with non-string values) is returned to the
caller as-is, not replaced by the empty mapping.  The parser below
implements `json.loads`: objects, arrays, strings with escapes, strict
numbers, `true`/`false`/`null` and the `NaN`/`Infinity` constants the
Python decoder accepts by default. -/

/-- A parsed JSON value.  Numbers are kept as their lexemes: their
numeric value never matters to the program. -/
inductive JValue where
  | jstr : String → JValue
  | jnum : String → JValue
  | jtrue : JValue
  | jfalse : JValue
  | jnull : JValue
  | jarr : List JValue → JValue
  | jobj : List (String × JValue) → JValue

/-- Optional fraction part of a JSON number: a dot must carry at least
one digit. -/
def parseJFrac : List Char → Option (List Char × List Char)
  | '.' :: t =>
    if (t.takeWhile isDigitModel).isEmpty then none
    else some ('.' :: t.takeWhile isDigitModel, t.dropWhile isDigitModel)
  | l => some ([], l)

/-- Optional exponent part of a JSON number: `e`/`E`, an optional sign,
then at least one digit. -/
def parseJExp : List Char → Option (List Char × List Char)
  | c :: t =>
    if c = 'e' || c = 'E' then
      match t with
      | s :: t2 =>
        if s = '+' || s = '-' then
          if (t2.takeWhile isDigitModel).isEmpty then none
          else some (c :: s :: t2.takeWhile isDigitModel, t2.dropWhile isDigitModel)
        else if (t.takeWhile isDigitModel).isEmpty then none
        else some (c :: t.takeWhile isDigitModel, t.dropWhile isDigitModel)
      | [] => none
    else some ([], c :: t)
  | [] => some ([], [])

/-- The unsigned part of a JSON number: `0`, or a nonzero digit followed
by digits, then the optional fraction and exponent. -/
def parseJNumCore : List Char → Option (List Char × List Char)
  | c :: t =>
    if c = '0' then
      match parseJFrac t with
      | some (fr, l2) =>
        match parseJExp l2 with
        | some (ex, l3) => some ('0' :: (fr ++ ex), l3)
        | none => none
      | none => none
    else if 49 ≤ c.toNat && c.toNat ≤ 57 then
      match parseJFrac (t.dropWhile isDigitModel) with
      | some (fr, l2) =>
        match parseJExp l2 with
        | some (ex, l3) => some (c :: (t.takeWhile isDigitModel ++ fr ++ ex), l3)
        | none => none
      | none => none
    else none
  | [] => none

/-- A JSON number, with the optional leading minus and the `-Infinity`
constant the Python decoder accepts. -/
def parseJNum : List Char → Option (List Char × List Char)
  | '-' :: 'I' :: 'n' :: 'f' :: 'i' :: 'n' :: 'i' :: 't' :: 'y' :: r =>
    some ("-Infinity".data, r)
  | '-' :: t =>
    match parseJNumCore t with
    | some (lex, r) => some ('-' :: lex, r)
    | none => none
  | l => parseJNumCore l

/-- What the unified JSON parser is currently reading: one value, the
members of an object after its opening brace, or the elements of an array
after its opening bracket. -/
inductive JMode where
  | value : JMode
  | members : JMode
  | elems : JMode

/-- The recursive descent behind `json.loads`, unified into one
fuel-driven function so that it reduces in the kernel; each unit of fuel
consumes at least one input character, so the fuel never runs out at the
top-level call. -/
def parseJAux : Nat → JMode → List Char → Option (JValue × List Char)
  | 0, _, _ => none
  | fuel + 1, JMode.value, l =>
    match l with
    | [] => none
    | c :: t =>
      if c = '\x7b' then
        match skipWs t with
        | '\x7d' :: r => some (JValue.jobj [], r)
        | r => parseJAux fuel JMode.members r
      else if c = '[' then
        match skipWs t with
        | ']' :: r => some (JValue.jarr [], r)
        | r => parseJAux fuel JMode.elems r
      else if c = '\x22' then
        match parseStrBody t with
        | some (cs, r) => some (JValue.jstr (String.mk cs), r)
        | none => none
      else if c = 't' then
        match t with
        | 'r' :: 'u' :: 'e' :: r => some (JValue.jtrue, r)
        | _ => none
      else if c = 'f' then
        match t with
        | 'a' :: 'l' :: 's' :: 'e' :: r => some (JValue.jfalse, r)
        | _ => none
      else if c = 'n' then
        match t with
        | 'u' :: 'l' :: 'l' :: r => some (JValue.jnull, r)
        | _ => none
      else if c = 'N' then
        match t with
        | 'a' :: 'N' :: r => some (JValue.jnum "NaN", r)
        | _ => none
      else if c = 'I' then
        match t with
        | 'n' :: 'f' :: 'i' :: 'n' :: 'i' :: 't' :: 'y' :: r =>
          some (JValue.jnum "Infinity", r)
        | _ => none
      else
        match parseJNum (c :: t) with
        | some (lex, r) => some (JValue.jnum (String.mk lex), r)
        | none => none
  | fuel + 1, JMode.members, l =>
    match parseJStr (skipWs l) with
    | some (k, r1) =>
      match skipWs r1 with
      | ':' :: r2 =>
        match parseJAux fuel JMode.value (skipWs r2) with
        | some (v, r3) =>
          match skipWs r3 with
          | ',' :: r4 =>
            match parseJAux fuel JMode.members r4 with
            | some (JValue.jobj ms, r5) => some (JValue.jobj ((k, v) :: ms), r5)
            | _ => none
          | '\x7d' :: r4 => some (JValue.jobj [(k, v)], r4)
          | _ => none
        | none => none
      | _ => none
    | none => none
  | fuel + 1, JMode.elems, l =>
    match parseJAux fuel JMode.value (skipWs l) with
    | some (v, r1) =>
      match skipWs r1 with
      | ',' :: r2 =>
        match parseJAux fuel JMode.elems r2 with
        | some (JValue.jarr vs, r3) => some (JValue.jarr (v :: vs), r3)
        | _ => none
      | ']' :: r2 => some (JValue.jarr [v], r2)
      | _ => none
    | none => none

/-- A complete JSON document as `json.load` reads it: one value
surrounded by optional whitespace; `none` exactly when the decoder
raises. -/
def parseJsonDoc (s : String) : Option JValue :=
  match parseJAux (s.data.length + 1) JMode.value (skipWs s.data) with
  | some (v, r) => if skipWs r = [] then some v else none
  | none => none

/-- Insert-or-update for object members, mirroring how the decoder builds
its dict: an existing key keeps its position and takes the new value. -/
def jvalueInsert : List (String × JValue) → String → JValue → List (String × JValue)
  | [], k, v => [(k, v)]
  | (k1, v1) :: t, k, v =>
    if k1 = k then (k1, v) :: t else (k1, v1) :: jvalueInsert t k v

/-- Replay the parsed members into a dict, so duplicate keys resolve the
way `json.load` resolves them (last value wins, first position kept). -/
def jobjDedup (ms : List (String × JValue)) : List (String × JValue) :=
  ms.foldl (fun acc e => jvalueInsert acc e.1 e.2) []

/-- Extract a string-to-string mapping from object members, failing on
any non-string value. -/
def strEntries : List (String × JValue) → Option Cache
  | [] => some []
  | (k, JValue.jstr s) :: t =>
    match strEntries t with
    | some m => some ((k, s) :: m)
    | none => none
  | _ => none

/-- The JSON values that are well-formed cache contents: objects mapping
keys to strings. -/
def jvalueMapping : JValue → Option Cache
  | JValue.jobj ms => strEntries (jobjDedup ms)
  | _ => none

/-- What `_load_cache` hands to its caller: the empty mapping for a
missing file, the empty mapping when `json.load` raises (the bare
`except`), the mapping itself for an object of strings, and the decoded
value as-is for valid JSON of any other shape. -/
inductive LoadResult where
  | mapping : Cache → LoadResult
  | other : JValue → LoadResult

/-- `FrenchTTS._load_cache` (main.py 82-90) as a function of the cache
file's state.  Totality models the bare `except`: no error ever reaches
the caller. -/
def loadCache (d : Option String) : LoadResult :=
  match d with
  | none => LoadResult.mapping []
  | some s =>
    match parseJsonDoc s with
    | none => LoadResult.mapping []
    | some v =>
      match jvalueMapping v with
      | some m => LoadResult.mapping m
      | none => LoadResult.other v

/-! ## Session configuration and cache keys -/

/-- The configuration state a `FrenchTTS` instance carries into `speak`
(main.py lines 54-80): the resolved provider voice identifier, rate and
volume strings, output directory, auto-play and cache flags. -/
structure TTSConfig where
  voice : String
  rate : String
  volume : String
  outputDir : String
  autoPlay : Bool
  useCache : Bool
deriving DecidableEq

/-- `FrenchTTS._get_cache_key` (main.py 100-103): the first 16 hex digits
of the MD5 of `f"{text}|{voice}|{rate}|{volume}"` encoded as UTF-8. -/
def getCacheKey (cfg : TTSConfig) (text : String) : String :=
  let content := text ++ "|" ++ cfg.voice ++ "|" ++ cfg.rate ++ "|" ++ cfg.volume
  String.mk ((md5Hex (utf8Encode content)).take 16)

/-! ## Voice table, configuration defaults, and `FrenchTTS.__init__` -/

/-- The fixed voice table `FRENCH_VOICES` (main.py 43-49). -/
def FRENCH_VOICES : List (String × String) :=
  [("henri", "fr-FR-HenriNeural"),
   ("denise", "fr-FR-DeniseNeural"),
   ("eloise", "fr-FR-EloiseNeural"),
   ("remy", "fr-FR-RemyMultilingualNeural"),
   ("vivienne", "fr-FR-VivienneMultilingualNeural")]

/-- `DEFAULT_VOICE` from src/config.py (the import on main.py line 33
succeeds, so config.py's values are in force). -/
def DEFAULT_VOICE : String := "henri"

/-- `DEFAULT_RATE` from src/config.py. -/
def DEFAULT_RATE : String := "-25%"

/-- `DEFAULT_VOLUME` from src/config.py. -/
def DEFAULT_VOLUME : String := "+0%"

/-- `OUTPUT_DIR` from src/config.py. -/
def OUTPUT_DIR : String := "samples"

/-- `AUTO_PLAY` from src/config.py. -/
def AUTO_PLAY : Bool := true

/-- First-match association-list lookup, modelling Python dict lookup
(`in`, `[]`, `.get`). -/
def dictFind : List (String × String) → String → Option String
  | [], _ => none
  | (k, v) :: t, key => if k = key then some v else dictFind t key

/-- Python `voice or DEFAULT_VOICE` (main.py 64-66): `None` and the empty
string are falsy and are replaced by the default. -/
def pyOrDefault (v : Option String) (d : String) : String :=
  match v with
  | none => d
  | some s => if s = "" then d else s

/-- The voice resolution of `__init__` (main.py line 68):
`FRENCH_VOICES.get(voice, FRENCH_VOICES["denise"])`. -/
def resolveVoice (name : String) : String :=
  (dictFind FRENCH_VOICES name).getD ((dictFind FRENCH_VOICES "denise").getD "")

/-- `FrenchTTS.__init__` (main.py 54-80): apply the falsy-or defaults,
resolve the voice through the table with the denise fallback, and record
the directory and flags.  Construction is total: no voice name makes it
fail. -/
def mkConfig (voice rate volume : Option String) (useCache : Bool) : TTSConfig :=
  { voice := resolveVoice (pyOrDefault voice DEFAULT_VOICE)
    rate := pyOrDefault rate DEFAULT_RATE
    volume := pyOrDefault volume DEFAULT_VOLUME
    outputDir := OUTPUT_DIR
    autoPlay := AUTO_PLAY
    useCache := useCache }

/-! ## Cache dictionary operations -/

/-- `self.cache[key] = path`: overwrite in place when the key is present
(keeping its position, as Python dicts do), append otherwise. -/
def dictInsert : Cache → String → String → Cache
  | [], k, v => [(k, v)]
  | (k1, v1) :: t, k, v =>
    if k1 = k then (k1, v) :: t else (k1, v1) :: dictInsert t k v

/-- `del self.cache[key]`: remove the binding of `key`. -/
def dictErase : Cache → String → Cache
  | [], _ => []
  | (k1, v1) :: t, k =>
    if k1 = k then t else (k1, v1) :: dictErase t k

/-! ## Observable events and the `speak` / `clear_cache` state machines -/

/-- The observable effects of one call, in program order: in-memory cache
mutations, cache-file writes and deletion, synthesis-collaborator
invocations, and playback triggers. -/
inductive Event where
  | delEntry : String → Event
  | insEntry : String → String → Event
  | clearEntries : Event
  | saveFile : String → Event
  | deleteFile : Event
  | synthesize : String → String → String → String → String → Event
  | play : String → Event
deriving DecidableEq

/-- Is the event a synthesis-collaborator invocation? -/
def isSynthEv : Event → Bool
  | Event.synthesize _ _ _ _ _ => true
  | _ => false

/-- Is the event a write or deletion of the persisted cache file? -/
def isPersistEv : Event → Bool
  | Event.saveFile _ => true
  | Event.deleteFile => true
  | _ => false

/-- Is the event one of the three in-memory cache mutations? -/
def isMutEv : Event → Bool
  | Event.delEntry _ => true
  | Event.insEntry _ _ => true
  | Event.clearEntries => true
  | _ => false

/-- Is the event an insert or a clear (the mutations the code persists
immediately)? -/
def isInsClearEv : Event → Bool
  | Event.insEntry _ _ => true
  | Event.clearEntries => true
  | _ => false

/-- Replay an event against the in-memory mapping. -/
def applyMem (c : Cache) : Event → Cache
  | Event.delEntry k => dictErase c k
  | Event.insEntry k p => dictInsert c k p
  | Event.clearEntries => []
  | _ => c

/-- Replay an event against the persisted cache file. -/
def applyDisk (d : Option String) : Event → Option String
  | Event.saveFile s => some s
  | Event.deleteFile => none
  | _ => d

/-- The in-memory mapping after a trace. -/
def replayMem (c : Cache) (evs : List Event) : Cache :=
  evs.foldl applyMem c

/-- The persisted cache file after a trace. -/
def replayDisk (d : Option String) (evs : List Event) : Option String :=
  evs.foldl applyDisk d

/-- Check, along a trace, that every mutation selected by `isMut` is
synchronously persisted: right after the mutation the persisted file
already reloads to the in-memory mapping, or the very next event is a
persist after which it does. -/
def checkSyncWith (isMut : Event → Bool) : Cache → Option String → List Event → Bool
  | _, _, [] => true
  | c, d, e :: rest =>
    let c1 := applyMem c e
    let d1 := applyDisk d e
    if isMut e then
      (decide (loadOf d1 = c1) && checkSyncWith isMut c1 d1 rest) ||
      (match rest with
       | [] => false
       | e2 :: rest2 =>
         isPersistEv e2 && decide (loadOf (applyDisk d1 e2) = applyMem c1 e2) &&
         checkSyncWith isMut (applyMem c1 e2) (applyDisk d1 e2) rest2)
    else checkSyncWith isMut c1 d1 rest

/-- Claim C3's reading: every cache mutation is synchronously persisted. -/
def checkSyncAll (c : Cache) (d : Option String) (evs : List Event) : Bool :=
  checkSyncWith isMutEv c d evs

/-- The weaker property the code satisfies: inserts and clears are
synchronously persisted. -/
def checkSyncIns (c : Cache) (d : Option String) (evs : List Event) : Bool :=
  checkSyncWith isInsClearEv c d evs

/-- The outcome of one `speak` call: the returned path (`none` when the
synthesis collaborator raised and the exception propagated), the final
in-memory cache, and the event trace. -/
structure SpeakOut where
  result : Option String
  cache : Cache
  events : List Event
deriving DecidableEq

/-- The output file name before the suffix check: a timestamp plus the
sanitized slug when the caller supplied none (main.py lines 176-179). -/
def genFilename (now text : String) (filename? : Option String) : String :=
  match filename? with
  | none => now ++ "_" ++ sanitizeFilename text ++ ".mp3"
  | some f => f

/-- The `.mp3` suffix check of main.py lines 181-182. -/
def ensureMp3 (f : String) : String :=
  if pyEndsWith f ".mp3" then f else f ++ ".mp3"

/-- The output path `os.path.join(self.output_dir, filename)` chosen by
`speak` before synthesis (main.py lines 176-184). -/
def outputPathOf (cfg : TTSConfig) (now text : String) (filename? : Option String) : String :=
  pathJoin cfg.outputDir (ensureMp3 (genFilename now text filename?))

/-- The synthesis-and-store tail of `speak` (main.py 175-217), reached on
a cache miss, a stale hit (after the `del`, passed in via `cache` and
`pre`), a disabled cache, or `force_regenerate`: derive the output file
name (timestamp plus sanitized slug when the caller gave none, appending
`.mp3` when absent), invoke the synthesis collaborator, and on success
insert into the cache, persist it, and optionally trigger playback.
`synthOk` models whether the external collaborator succeeds; on failure
the exception propagates with no insert and no save. -/
def speakGen (synthOk : Bool) (cfg : TTSConfig) (cache : Cache) (pre : List Event)
    (key now text : String) (filename? : Option String) (play : Bool) : SpeakOut :=
  let outputPath := outputPathOf cfg now text filename?
  let evs := pre ++ [Event.synthesize text cfg.voice cfg.rate cfg.volume outputPath]
  if !synthOk then { result := none, cache := cache, events := evs }
  else if cfg.useCache then
    let cache2 := dictInsert cache key outputPath
    { result := some outputPath
      cache := cache2
      events := evs ++ Event.insEntry key outputPath ::
        Event.saveFile (dumpCache cache2) ::
        (if play then [Event.play outputPath] else []) }
  else
    { result := some outputPath
      cache := cache
      events := evs ++ (if play then [Event.play outputPath] else []) }

/-- `FrenchTTS.speak` (main.py 141-217) as a state transformer.  `fs` is
the set of audio files present on disk (`os.path.exists`), `now` the
timestamp string `datetime.now().strftime("%Y%m%d%H%M%S")`.  With caching
on, no force flag and a cached key: return the cached path when its file
exists (triggering playback only); otherwise drop the stale entry and fall
through to synthesis. -/
def speak (synthOk : Bool) (cfg : TTSConfig) (cache : Cache) (fs : List String)
    (now text : String) (filename? : Option String) (play? : Option Bool)
    (force : Bool) : SpeakOut :=
  let play := play?.getD cfg.autoPlay
  let key := getCacheKey cfg text
  if cfg.useCache && !force && (dictFind cache key).isSome then
    let cached := (dictFind cache key).getD ""
    if fs.contains cached then
      { result := some cached
        cache := cache
        events := if play then [Event.play cached] else [] }
    else
      speakGen synthOk cfg (dictErase cache key) [Event.delEntry key] key now text filename? play
  else
    speakGen synthOk cfg cache [] key now text filename? play

/-- The outcome of `clear_cache` (main.py 105-111): the emptied mapping,
the count reported by the `print`, the Python return value (the function
has no `return` statement, so it returns `None`), and the trace (the file
is removed only when it exists). -/
structure ClearOut where
  cache : Cache
  printedCount : Nat
  returned : Option Nat
  events : List Event
deriving DecidableEq

/-- `FrenchTTS.clear_cache` as a state transformer over the in-memory
mapping and the persisted file. -/
def clearCache (c : Cache) (d : Option String) : ClearOut :=
  { cache := []
    printedCount := c.length
    returned := none
    events := Event.clearEntries :: (if d.isSome then [Event.deleteFile] else []) }

/-- The default session `FrenchTTS()` used by the interactive loop:
config.py's defaults with caching on. -/
def cfgDefault : TTSConfig :=
  mkConfig none none none true

/-- The cache key the default session derives for the text `"Bonjour"`,
used as a concrete key in witnesses. -/
def keyB : String :=
  getCacheKey cfgDefault "Bonjour"

/-! ## Helper lemmas -/

theorem string_mk_data (s : String) : String.mk s.data = s := by
  cases s
  rfl

theorem length_flatten_map_byteHex (l : List Nat) :
    ((l.map byteHex).flatten).length = 2 * l.length := by
  induction l with
  | nil => simp
  | cons b t ih =>
    simp [byteHex, ih]
    omega

theorem length_md5Bytes (msg : List Nat) : (md5Bytes msg).length = 16 := by
  simp [md5Bytes, wordLEBytes]

theorem length_md5Hex (msg : List Nat) : (md5Hex msg).length = 32 := by
  unfold md5Hex
  rw [length_flatten_map_byteHex, length_md5Bytes]

theorem length_mk (l : List Char) : (String.mk l).length = l.length := rfl

theorem getCacheKey_eq (cfg : TTSConfig) (text : String) :
    getCacheKey cfg text = String.mk
      ((md5Hex (utf8Encode
        (text ++ "|" ++ cfg.voice ++ "|" ++ cfg.rate ++ "|" ++ cfg.volume))).take 16) := rfl

theorem hexDigitChar_mem (n : Nat) : hexDigitChar n ∈ hexDigits := by
  have hlt : n % 16 < 16 := Nat.mod_lt _ (by norm_num)
  have h : ∀ i < 16, hexDigits.getD i '0' ∈ hexDigits := by decide
  exact h _ hlt

theorem mem_md5Hex_hex (msg : List Nat) (c : Char) (hc : c ∈ md5Hex msg) :
    c ∈ hexDigits := by
  simp only [md5Hex, List.mem_flatten, List.mem_map] at hc
  obtain ⟨w, ⟨b, _, rfl⟩, hw⟩ := hc
  simp only [byteHex, List.mem_cons, List.mem_singleton] at hw
  rcases hw with h | h | h
  · exact h ▸ hexDigitChar_mem _
  · exact h ▸ hexDigitChar_mem _
  · exact absurd h (List.not_mem_nil c)

theorem dictFind_insert_self (l : Cache) (k v : String) :
    dictFind (dictInsert l k v) k = some v := by
  induction l with
  | nil => simp [dictInsert, dictFind]
  | cons e t ih =>
    obtain ⟨k1, v1⟩ := e
    by_cases h : k1 = k
    · simp [dictInsert, dictFind, h]
    · simp [dictInsert, dictFind, h, ih]

theorem pyEndsWith_append_self (s t : String) : pyEndsWith (s ++ t) t = true := by
  simp only [pyEndsWith, decide_eq_true_eq, String.data_append]
  exact List.suffix_append s.data t.data

theorem pathJoin_endsWith (a b suf : String) (h : pyEndsWith b suf = true) :
    pyEndsWith (pathJoin a b) suf = true := by
  simp only [pyEndsWith, decide_eq_true_eq] at h ⊢
  unfold pathJoin
  split
  · exact h
  · split
    · exact h
    · split
      · simp only [String.data_append]
        exact h.trans (List.suffix_append a.data b.data)
      · simp only [String.data_append]
        exact h.trans (List.suffix_append _ _)

theorem checkSyncWith_of_noMut (isMut : Event → Bool) (l : List Event)
    (c : Cache) (d : Option String) (h : ∀ e ∈ l, isMut e = false) :
    checkSyncWith isMut c d l = true := by
  induction l generalizing c d with
  | nil => rfl
  | cons e t ih =>
    have he : isMut e = false := h e (List.mem_cons_self e t)
    rw [checkSyncWith.eq_def]
    simp only [he, Bool.false_eq_true, if_false]
    exact ih _ _ fun x hx => h x (List.mem_cons_of_mem e hx)

theorem playEvents_noMut (p : Bool) (path : String) :
    ∀ e ∈ (if p then [Event.play path] else []), isInsClearEv e = false := by
  cases p <;> simp [isInsClearEv]

/-! ## Claim C5 — cache-key determinism and shape -/

/-- Claim C5: the cache key derived from (text, voice, rate, volume) is
deterministic — in this pure embedding, equal configurations and texts
give the identical key — and is a string of exactly 16 characters, each a
lowercase hexadecimal digit. -/
theorem c5_cache_key_shape :
    (∀ (cfg1 cfg2 : TTSConfig) (t1 t2 : String), cfg1 = cfg2 → t1 = t2 →
      getCacheKey cfg1 t1 = getCacheKey cfg2 t2) ∧
    (∀ (cfg : TTSConfig) (text : String),
      (getCacheKey cfg text).length = 16 ∧
      ∀ c ∈ (getCacheKey cfg text).data, c ∈ hexDigits) := by
  constructor
  · intro cfg1 cfg2 t1 t2 h1 h2
    rw [h1, h2]
  · intro cfg text
    constructor
    · rw [getCacheKey_eq, length_mk, List.length_take, length_md5Hex]
      norm_num
    · intro c hc
      rw [getCacheKey_eq] at hc
      exact mem_md5Hex_hex _ _ (List.take_subset _ _ hc)

set_option maxRecDepth 10000 in
/-- Witness for C5 at a concrete session and text. -/
theorem c5_cache_key_shape_witness :
    getCacheKey cfgDefault "Bonjour" = getCacheKey cfgDefault "Bonjour" ∧
    (getCacheKey cfgDefault "Bonjour").length = 16 := by
  exact ⟨c5_cache_key_shape.1 cfgDefault cfgDefault "Bonjour" "Bonjour" rfl rfl,
    (c5_cache_key_shape.2 cfgDefault "Bonjour").1⟩

set_option maxRecDepth 10000 in
/-- Validation of the MD5 embedding against the well-known digest of the
empty input. -/
theorem md5Hex_empty : String.mk (md5Hex []) = "d41d8cd98f00b204e9800998ecf8427e" := by
  decide

set_option maxRecDepth 10000 in
/-- Validation of the MD5 embedding against the well-known digest of
`"abc"`. -/
theorem md5Hex_abc :
    String.mk (md5Hex (utf8Encode "abc")) = "900150983cd24fb0d6963f7d28e17f72" := by
  decide

/-! ## Claim C9 — unknown voice names -/

/-- Claim C9 as stated is false.  `__init__` never fails on an unknown
voice name, but the fallback hard-coded at main.py line 68 is the denise
voice, not the documented default `DEFAULT_VOICE = "henri"` of
src/config.py: constructing a session with the unknown name `"marcel"`
yields `fr-FR-DeniseNeural`, not the configured default's
`fr-FR-HenriNeural`. -/
theorem c9_voice_fallback_counterexample :
    (mkConfig (some "marcel") none none true).voice = "fr-FR-DeniseNeural" ∧
    (dictFind FRENCH_VOICES DEFAULT_VOICE).getD "" = "fr-FR-HenriNeural" ∧
    (mkConfig (some "marcel") none none true).voice ≠
      (dictFind FRENCH_VOICES DEFAULT_VOICE).getD "" := by
  decide

/-- Claim C9 amended: construction with an unknown voice name is total and
falls back to a fixed voice, but that fixed voice is the hard-coded
`FRENCH_VOICES["denise"]`, not the configured `DEFAULT_VOICE`; only an
omitted (`None`) or empty voice argument falls back to the configured
default henri. -/
theorem c9_voice_fallback_amended (rate volume : Option String) (useCache : Bool) :
    (∀ name : String, name ≠ "" → dictFind FRENCH_VOICES name = none →
      (mkConfig (some name) rate volume useCache).voice = "fr-FR-DeniseNeural") ∧
    (mkConfig none rate volume useCache).voice = "fr-FR-HenriNeural" ∧
    (mkConfig (some "") rate volume useCache).voice = "fr-FR-HenriNeural" := by
  refine ⟨?a, rfl, rfl⟩
  intro name h1 h2
  show resolveVoice (if name = "" then DEFAULT_VOICE else name) = "fr-FR-DeniseNeural"
  rw [if_neg h1]
  show (dictFind FRENCH_VOICES name).getD _ = "fr-FR-DeniseNeural"
  rw [h2]
  rfl

/-- Witness for the amended C9 at the concrete unknown name `"marcel"`. -/
theorem c9_voice_fallback_amended_witness :
    dictFind FRENCH_VOICES "marcel" = none ∧
    (mkConfig (some "marcel") none none true).voice = "fr-FR-DeniseNeural" :=
  ⟨by decide, (c9_voice_fallback_amended none none true).1 "marcel" (by decide) (by decide)⟩

/-! ## Claim C4 — the clear operation -/

/-- Claim C4 as stated is false on one point: `clear_cache` has no
`return` statement, so its Python return value is `None`; the count of
removed entries is only printed.  On a one-entry store the operation
removes the entry and reports 1, but returns `None`, not 1. -/
theorem c4_clear_counterexample :
    (clearCache [("k", "v")] none).returned = none ∧
    (clearCache [("k", "v")] none).printedCount = 1 ∧
    (clearCache [("k", "v")] none).returned ≠ some 1 := by
  decide

/-- Claim C4 amended: `clear_cache` on a store of N entries empties the
in-memory mapping, leaves the persisted file deleted (removing it when it
exists), and prints — rather than returns — the count N; a subsequent load
of the absent file yields the empty mapping. -/
theorem c4_clear_amended (c : Cache) (d : Option String) :
    (clearCache c d).cache = [] ∧
    (clearCache c d).printedCount = c.length ∧
    replayDisk d (clearCache c d).events = none ∧
    loadOf (replayDisk d (clearCache c d).events) = [] ∧
    (clearCache c d).returned = none := by
  cases d <;> simp [clearCache, replayDisk, applyDisk, loadOf]

/-! ## Claim C2 — the sanitization rule -/

/-- Claim C2 as stated is false: the code's regex `\w` also keeps the
underscore, which the claimed rule (letters, digits, whitespace, hyphen,
apostrophe) strips.  On the input `"_"` the code returns `"_"` while the
claimed rule yields the placeholder `"audio"`. -/
theorem c2_sanitize_counterexample :
    sanitizeFilename "_" = "_" ∧ sanitizeSpecRule "_" = "audio" ∧
    sanitizeFilename "_" ≠ sanitizeSpecRule "_" := by
  decide

theorem keepChar_eq_specKeepAmended (c : Char) : keepChar c = specKeepAmended c := by
  simp [keepChar, pyIsWordChar, isAlnumModel, specKeepAmended, Bool.or_assoc]

/-- Claim C2 amended: with the kept characters being Python's full
alphanumeric class (letters, decimal digits, and numeric characters such
as the vulgar fractions) plus underscore, whitespace, hyphen and
apostrophe, the sanitizer implements the claimed rule exactly, on every
input; the claim's two examples hold as stated, and the numeric
characters the regex `\w` retains are indeed kept (`"¼"` sanitizes to
`"¼"`, matching the program). -/
theorem c2_sanitize_amended :
    (∀ text : String, sanitizeFilename text = sanitizeSpecAmended text) ∧
    sanitizeFilename "Bonjour Madame, je voudrais un café." = "Bonjour_Madame_je_voudrais" ∧
    sanitizeFilename "!!!" = "audio" ∧
    sanitizeFilename "¼" = "¼" := by
  refine ⟨?a, by decide, by decide, by decide⟩
  intro text
  have hf : text.data.filter keepChar = text.data.filter specKeepAmended :=
    List.filter_congr fun c _ => keepChar_eq_specKeepAmended c
  simp only [sanitizeFilename, sanitizeChars, sanitizeSpecAmended, sanitizeRule, hf]

/-! ## JSON round-trip lemmas -/

theorem hexVal_hexDigitChar (k : Nat) (h : k < 16) : hexVal (hexDigitChar k) = some k := by
  have hh : ∀ i < 16, hexVal (hexDigitChar i) = some i := by decide
  exact hh k h

theorem one_le_length_jsonEscapeChar (c : Char) : 1 ≤ (jsonEscapeChar c).length := by
  unfold jsonEscapeChar
  repeat' split
  all_goals simp

theorem length_le_flatten_escape (cs : List Char) :
    cs.length ≤ ((cs.map jsonEscapeChar).flatten).length := by
  induction cs with
  | nil => simp
  | cons c t ih =>
    simp only [List.map_cons, List.flatten_cons, List.length_append, List.length_cons]
    have := one_le_length_jsonEscapeChar c
    omega

theorem parseStrBodyF_escape (cs : List Char) :
    ∀ (fuel : Nat) (rest : List Char), cs.length + 1 ≤ fuel →
      parseStrBodyF fuel ((cs.map jsonEscapeChar).flatten ++ '\x22' :: rest) =
        some (cs, rest) := by
  induction cs with
  | nil =>
    intro fuel rest hf
    cases fuel with
    | zero => omega
    | succ f => simp [parseStrBodyF]
  | cons c t ih =>
    intro fuel rest hf
    cases fuel with
    | zero => omega
    | succ f =>
      have ihf : parseStrBodyF f ((t.map jsonEscapeChar).flatten ++ '\x22' :: rest) =
          some (t, rest) := by
        refine ih f rest ?hl
        simp only [List.length_cons] at hf
        omega
      simp only [List.map_cons, List.flatten_cons, List.append_assoc]
      by_cases h1 : c = '\x22'
      · subst h1
        simp [jsonEscapeChar, parseStrBodyF, jsonUnescape1, ihf]
      · by_cases h2 : c = '\\'
        · subst h2
          simp [jsonEscapeChar, parseStrBodyF, jsonUnescape1, ihf]
        · by_cases h3 : c = '\x08'
          · subst h3
            simp [jsonEscapeChar, parseStrBodyF, jsonUnescape1, ihf]
          · by_cases h4 : c = '\x09'
            · subst h4
              simp [jsonEscapeChar, parseStrBodyF, jsonUnescape1, ihf]
            · by_cases h5 : c = '\x0a'
              · subst h5
                simp [jsonEscapeChar, parseStrBodyF, jsonUnescape1, ihf]
              · by_cases h6 : c = '\x0c'
                · subst h6
                  simp [jsonEscapeChar, parseStrBodyF, jsonUnescape1, ihf]
                · by_cases h7 : c = '\x0d'
                  · subst h7
                    simp [jsonEscapeChar, parseStrBodyF, jsonUnescape1, ihf]
                  · by_cases h8 : c.toNat < 32
                    · rw [jsonEscapeChar, if_neg h1, if_neg h2, if_neg h3, if_neg h4,
                        if_neg h5, if_neg h6, if_neg h7, if_pos h8]
                      have ehi : hexVal (hexDigitChar (c.toNat / 16)) = some (c.toNat / 16) :=
                        hexVal_hexDigitChar _ ((Nat.div_lt_iff_lt_mul (by norm_num)).2 (by omega))
                      have elo : hexVal (hexDigitChar (c.toNat % 16)) = some (c.toNat % 16) :=
                        hexVal_hexDigitChar _ (Nat.mod_lt _ (by norm_num))
                      have e0 : hexVal '0' = some 0 := by decide
                      simp [parseStrBodyF, e0, ehi, elo, ihf, Nat.div_add_mod]
                    · rw [jsonEscapeChar, if_neg h1, if_neg h2, if_neg h3, if_neg h4,
                        if_neg h5, if_neg h6, if_neg h7, if_neg h8]
                      simp only [List.cons_append, List.nil_append]
                      simp [parseStrBodyF, if_neg h1, if_neg h2, if_neg h8, ihf]

theorem parseStrBody_escape (cs rest : List Char) :
    parseStrBody ((cs.map jsonEscapeChar).flatten ++ '\x22' :: rest) = some (cs, rest) := by
  unfold parseStrBody
  apply parseStrBodyF_escape
  simp only [List.length_append, List.length_cons]
  have := length_le_flatten_escape cs
  omega

theorem parseJStr_quote (s : String) (rest : List Char) :
    parseJStr (jsonQuoteStr s ++ rest) = some (s, rest) := by
  have h : jsonQuoteStr s ++ rest =
      '\x22' :: ((s.data.map jsonEscapeChar).flatten ++ '\x22' :: rest) := by
    simp [jsonQuoteStr]
  rw [h]
  simp [parseJStr, parseStrBody_escape, string_mk_data]

theorem skipWs_nl (l : List Char) : skipWs ('\n' :: l) = skipWs l := rfl

theorem skipWs_sp (l : List Char) : skipWs (' ' :: l) = skipWs l := rfl

theorem skipWs_colon (l : List Char) : skipWs (':' :: l) = ':' :: l := rfl

theorem skipWs_comma (l : List Char) : skipWs (',' :: l) = ',' :: l := rfl

theorem skipWs_rbrace (l : List Char) : skipWs ('\x7d' :: l) = '\x7d' :: l := rfl

theorem skipWs_nil : skipWs [] = [] := rfl

theorem skipWs_jq (s : String) (X : List Char) :
    skipWs (jsonQuoteStr s ++ X) = jsonQuoteStr s ++ X := by
  simp only [jsonQuoteStr, List.cons_append]
  rfl

theorem le_length_dumpMembers (m : Cache) : m.length ≤ (dumpMembersChars m).length := by
  induction m with
  | nil => simp
  | cons kv t ih =>
    obtain ⟨k, v⟩ := kv
    cases t with
    | nil => simp [dumpMembersChars]
    | cons e t2 =>
      simp only [dumpMembersChars, List.length_cons, List.length_append]
      simp only [List.length_cons] at ih
      omega

theorem parseMembers_dump (m : Cache) :
    ∀ (fuel : Nat) (rest : List Char), m ≠ [] → m.length ≤ fuel →
      parseMembers fuel (dumpMembersChars m ++ '\n' :: '\x7d' :: rest) = some (m, rest) := by
  induction m with
  | nil => intro fuel rest hne _; exact absurd rfl hne
  | cons kv t ih =>
    obtain ⟨k, v⟩ := kv
    intro fuel rest _ hlen
    cases fuel with
    | zero => simp at hlen
    | succ f =>
      cases t with
      | nil =>
        have hL : dumpMembersChars [(k, v)] ++ '\n' :: '\x7d' :: rest =
            '\n' :: ' ' :: ' ' ::
              (jsonQuoteStr k ++ (':' :: ' ' :: (jsonQuoteStr v ++ '\n' :: '\x7d' :: rest))) := by
          simp [dumpMembersChars, dumpEntryChars]
        rw [hL]
        simp [parseMembers, skipWs_nl, skipWs_sp, skipWs_jq, parseJStr_quote,
          skipWs_colon, skipWs_rbrace]
      | cons e t2 =>
        have hL : dumpMembersChars ((k, v) :: e :: t2) ++ '\n' :: '\x7d' :: rest =
            '\n' :: ' ' :: ' ' ::
              (jsonQuoteStr k ++ (':' :: ' ' :: (jsonQuoteStr v ++
                ',' :: (dumpMembersChars (e :: t2) ++ '\n' :: '\x7d' :: rest)))) := by
          simp [dumpMembersChars, dumpEntryChars]
        rw [hL]
        have hrec : parseMembers f (dumpMembersChars (e :: t2) ++ '\n' :: '\x7d' :: rest) =
            some (e :: t2, rest) := by
          refine ih f rest (by simp) ?hl
          simp only [List.length_cons] at hlen ⊢
          omega
        simp [parseMembers, skipWs_nl, skipWs_sp, skipWs_jq, parseJStr_quote,
          skipWs_colon, skipWs_comma, hrec]

theorem skipWs_lbrace (l : List Char) : skipWs ('\x7b' :: l) = '\x7b' :: l := rfl

theorem jq_append_cons (s : String) (X : List Char) :
    jsonQuoteStr s ++ X = '\x22' :: ((s.data.map jsonEscapeChar).flatten ++ '\x22' :: X) := by
  simp [jsonQuoteStr]

theorem skipWs_dumpMembers (k v : String) (t : Cache) (X : List Char) :
    skipWs (dumpMembersChars ((k, v) :: t) ++ X) =
      '\x22' :: ((k.data.map jsonEscapeChar).flatten ++ '\x22' ::
        (':' :: ' ' :: (jsonQuoteStr v ++
          (match t with
           | [] => X
           | e :: t2 => ',' :: (dumpMembersChars (e :: t2) ++ X))))) := by
  cases t with
  | nil =>
    simp only [dumpMembersChars, dumpEntryChars, List.cons_append, List.append_assoc]
    rw [skipWs_nl, skipWs_sp, skipWs_sp, skipWs_jq, jq_append_cons]
  | cons e t2 =>
    simp only [dumpMembersChars, dumpEntryChars, List.cons_append, List.append_assoc]
    rw [skipWs_nl, skipWs_sp, skipWs_sp, skipWs_jq, jq_append_cons]

/-! ## Equations for the branches of `speak` -/

theorem speak_hit (ok : Bool) (cfg : TTSConfig) (cache : Cache) (fs : List String)
    (now text : String) (fn : Option String) (pl : Option Bool) (F : String)
    (hu : cfg.useCache = true)
    (hk : dictFind cache (getCacheKey cfg text) = some F)
    (hf : fs.contains F = true) :
    speak ok cfg cache fs now text fn pl false =
      { result := some F
        cache := cache
        events := if pl.getD cfg.autoPlay then [Event.play F] else [] } := by
  have hf' : F ∈ fs := by simpa using hf
  unfold speak
  simp [hu, hk, hf']

theorem speak_stale (ok : Bool) (cfg : TTSConfig) (cache : Cache) (fs : List String)
    (now text : String) (fn : Option String) (pl : Option Bool) (F : String)
    (hu : cfg.useCache = true)
    (hk : dictFind cache (getCacheKey cfg text) = some F)
    (hf : fs.contains F = false) :
    speak ok cfg cache fs now text fn pl false =
      speakGen ok cfg (dictErase cache (getCacheKey cfg text))
        [Event.delEntry (getCacheKey cfg text)] (getCacheKey cfg text)
        now text fn (pl.getD cfg.autoPlay) := by
  have hf' : F ∉ fs := by simpa using hf
  unfold speak
  simp [hu, hk, hf']

theorem speak_miss (ok : Bool) (cfg : TTSConfig) (cache : Cache) (fs : List String)
    (now text : String) (fn : Option String) (pl : Option Bool) (force : Bool)
    (hg : (cfg.useCache && !force && (dictFind cache (getCacheKey cfg text)).isSome) = false) :
    speak ok cfg cache fs now text fn pl force =
      speakGen ok cfg cache [] (getCacheKey cfg text) now text fn (pl.getD cfg.autoPlay) := by
  unfold speak
  simp [hg]

theorem speakGen_fail (cfg : TTSConfig) (c : Cache) (pre : List Event)
    (key now text : String) (fn : Option String) (play : Bool) :
    speakGen false cfg c pre key now text fn play =
      { result := none
        cache := c
        events := pre ++ [Event.synthesize text cfg.voice cfg.rate cfg.volume
          (outputPathOf cfg now text fn)] } := by
  simp [speakGen]

theorem speakGen_ok_cache (cfg : TTSConfig) (c : Cache) (pre : List Event)
    (key now text : String) (fn : Option String) (play : Bool)
    (hu : cfg.useCache = true) :
    speakGen true cfg c pre key now text fn play =
      { result := some (outputPathOf cfg now text fn)
        cache := dictInsert c key (outputPathOf cfg now text fn)
        events := pre ++ Event.synthesize text cfg.voice cfg.rate cfg.volume
            (outputPathOf cfg now text fn) ::
          Event.insEntry key (outputPathOf cfg now text fn) ::
          Event.saveFile (dumpCache (dictInsert c key (outputPathOf cfg now text fn))) ::
          (if play then [Event.play (outputPathOf cfg now text fn)] else []) } := by
  simp [speakGen, hu]

theorem speakGen_ok_nocache (cfg : TTSConfig) (c : Cache) (pre : List Event)
    (key now text : String) (fn : Option String) (play : Bool)
    (hu : cfg.useCache = false) :
    speakGen true cfg c pre key now text fn play =
      { result := some (outputPathOf cfg now text fn)
        cache := c
        events := pre ++ Event.synthesize text cfg.voice cfg.rate cfg.volume
            (outputPathOf cfg now text fn) ::
          (if play then [Event.play (outputPathOf cfg now text fn)] else []) } := by
  simp [speakGen, hu]

theorem outputPathOf_endsWith (cfg : TTSConfig) (now text : String) (fn : Option String) :
    pyEndsWith (outputPathOf cfg now text fn) ".mp3" = true := by
  unfold outputPathOf ensureMp3
  by_cases h : pyEndsWith (genFilename now text fn) ".mp3" = true
  · rw [if_pos h]
    exact pathJoin_endsWith _ _ _ h
  · rw [if_neg (by simpa using h)]
    exact pathJoin_endsWith _ _ _ (pyEndsWith_append_self _ _)

theorem replayDisk_noPersist (l : List Event) (d : Option String)
    (h : ∀ e ∈ l, isPersistEv e = false) : replayDisk d l = d := by
  induction l generalizing d with
  | nil => rfl
  | cons e t ih =>
    have he := h e (List.mem_cons_self e t)
    have hd : applyDisk d e = d := by
      cases e <;> simp_all [applyDisk, isPersistEv]
    simp only [replayDisk, List.foldl_cons, hd]
    exact ih d fun x hx => h x (List.mem_cons_of_mem e hx)

theorem playEvents_noPersist (p : Bool) (path : String) :
    ∀ e ∈ (if p then [Event.play path] else []), isPersistEv e = false := by
  cases p <;> simp [isPersistEv]

theorem parseCache_dump (m : Cache) : parseCache (dumpCache m) = some m := by
  cases m with
  | nil => decide
  | cons kv t =>
    obtain ⟨k, v⟩ := kv
    have hd : (dumpCache ((k, v) :: t)).data =
        '\x7b' :: (dumpMembersChars ((k, v) :: t) ++ '\n' :: '\x7d' :: []) := rfl
    have hb := le_length_dumpMembers ((k, v) :: t)
    have hmem2 := parseMembers_dump ((k, v) :: t)
      ((dumpMembersChars ((k, v) :: t)).length + 2 + 1) [] (by simp)
      (by simp only [List.length_cons] at hb ⊢; omega)
    simp [parseCache, hd, skipWs_lbrace, skipWs_dumpMembers]
    rw [hmem2]
    simp [skipWs_nil]

/-! ## Claim C1 — cache hit -/

/-- Claim C1: with caching enabled and no force flag, a store entry for
the derived key whose file exists makes `speak` return the cached path
without invoking the synthesis collaborator (no synthesis event occurs,
whether or not the collaborator would have succeeded). -/
theorem c1_speak_cache_hit (ok : Bool) (cfg : TTSConfig) (cache : Cache) (fs : List String)
    (now text : String) (fn : Option String) (pl : Option Bool) (F : String)
    (hu : cfg.useCache = true)
    (hk : dictFind cache (getCacheKey cfg text) = some F)
    (hf : fs.contains F = true) :
    (speak ok cfg cache fs now text fn pl false).result = some F ∧
    (speak ok cfg cache fs now text fn pl false).events.filter isSynthEv = [] := by
  rw [speak_hit ok cfg cache fs now text fn pl F hu hk hf]
  refine ⟨rfl, ?b⟩
  cases hb : pl.getD cfg.autoPlay <;> simp [isSynthEv]

/-- Witness for C1: a default session with a pre-populated store whose
file exists returns the cached path. -/
theorem c1_speak_cache_hit_witness :
    dictFind [(keyB, "samples/hit.mp3")] (getCacheKey cfgDefault "Bonjour") =
      some "samples/hit.mp3" ∧
    (["samples/hit.mp3"] : List String).contains "samples/hit.mp3" = true ∧
    (speak true cfgDefault [(keyB, "samples/hit.mp3")] ["samples/hit.mp3"]
      "20260101120000" "Bonjour" none none false).result = some "samples/hit.mp3" := by
  refine ⟨by simp [dictFind, keyB], by decide, ?r⟩
  exact (c1_speak_cache_hit true cfgDefault [(keyB, "samples/hit.mp3")] ["samples/hit.mp3"]
    "20260101120000" "Bonjour" none none "samples/hit.mp3" rfl
    (by simp [dictFind, keyB]) (by decide)).1

/-! ## Claim C7 — stale entry recovery -/

/-- Claim C7: when the cached path for the derived key no longer exists,
`speak` (with a successful synthesis) deletes the stale entry, invokes the
synthesis collaborator exactly once, and rebinds the key to the newly
produced path, which it returns; the staleness is handled inside the call
and no error reaches the caller (the call completes with a `some` result). -/
theorem c7_speak_stale_regen (cfg : TTSConfig) (cache : Cache) (fs : List String)
    (now text : String) (fn : Option String) (pl : Option Bool) (F : String)
    (hu : cfg.useCache = true)
    (hk : dictFind cache (getCacheKey cfg text) = some F)
    (hf : fs.contains F = false) :
    ((speak true cfg cache fs now text fn pl false).events.filter isSynthEv).length = 1 ∧
    Event.delEntry (getCacheKey cfg text) ∈ (speak true cfg cache fs now text fn pl false).events ∧
    (speak true cfg cache fs now text fn pl false).result =
      some (outputPathOf cfg now text fn) ∧
    dictFind (speak true cfg cache fs now text fn pl false).cache (getCacheKey cfg text) =
      some (outputPathOf cfg now text fn) := by
  rw [speak_stale true cfg cache fs now text fn pl F hu hk hf,
    speakGen_ok_cache cfg _ _ _ now text fn _ hu]
  refine ⟨?A, ?B, rfl, dictFind_insert_self _ _ _⟩
  · cases hb : pl.getD cfg.autoPlay <;> simp [isSynthEv]
  · simp

/-- Witness for C7: a stale entry in a default session is regenerated. -/
theorem c7_speak_stale_regen_witness :
    dictFind [(keyB, "samples/gone.mp3")] (getCacheKey cfgDefault "Bonjour") =
      some "samples/gone.mp3" ∧
    (([] : List String).contains "samples/gone.mp3") = false ∧
    (speak true cfgDefault [(keyB, "samples/gone.mp3")] [] "20260101120000" "Bonjour"
      none (some false) false).result =
      some (outputPathOf cfgDefault "20260101120000" "Bonjour" none) := by
  refine ⟨by simp [dictFind, keyB], by decide, ?r⟩
  exact (c7_speak_stale_regen cfgDefault [(keyB, "samples/gone.mp3")] [] "20260101120000"
    "Bonjour" none (some false) "samples/gone.mp3" rfl
    (by simp [dictFind, keyB]) (by decide)).2.2.1

/-! ## Claim C6 — cache load never raises -/

/-- Claim C6 as stated is false for content that is valid JSON but not a
cache mapping.  The bare `except` of `_load_cache` (main.py 82-90) fires
only when `json.load` raises; the file content `[1, 2]` — malformed as a
cache file (the object-of-strings cache parser rejects it) — is decoded
successfully and returned to the caller as-is, not as the empty
mapping. -/
theorem c6_load_counterexample :
    parseCache "[1, 2]" = none ∧
    loadCache (some "[1, 2]") =
      LoadResult.other (JValue.jarr [JValue.jnum "1", JValue.jnum "2"]) ∧
    loadCache (some "[1, 2]") ≠ LoadResult.mapping [] := by
  refine ⟨by decide, rfl, ?c⟩
  intro hc
  rw [show loadCache (some "[1, 2]") =
    LoadResult.other (JValue.jarr [JValue.jnum "1", JValue.jnum "2"]) from rfl] at hc
  exact LoadResult.noConfusion hc

/-- Claim C6 amended: `_load_cache` never raises (the model is total); a
missing file loads as the empty mapping; content on which the JSON
decoder itself raises loads as the empty mapping; content that decodes as
JSON but is not an object of strings is returned to the caller verbatim
rather than as the empty mapping. -/
theorem c6_load_recovers_amended :
    loadCache none = LoadResult.mapping [] ∧
    (∀ s : String, parseJsonDoc s = none → loadCache (some s) = LoadResult.mapping []) ∧
    (∀ (s : String) (v : JValue), parseJsonDoc s = some v → jvalueMapping v = none →
      loadCache (some s) = LoadResult.other v) := by
  refine ⟨rfl, ?b, ?c⟩
  · intro s h
    simp [loadCache, h]
  · intro s v h1 h2
    simp [loadCache, h1, h2]

/-- Witness for the amended C6: decoder-rejected content loads as the
empty mapping, and a valid JSON array is handed back as-is. -/
theorem c6_load_recovers_amended_witness :
    parseJsonDoc "garbage" = none ∧
    loadCache (some "garbage") = LoadResult.mapping [] ∧
    parseJsonDoc "[1, 2]" = some (JValue.jarr [JValue.jnum "1", JValue.jnum "2"]) ∧
    jvalueMapping (JValue.jarr [JValue.jnum "1", JValue.jnum "2"]) = none ∧
    loadCache (some "[1, 2]") =
      LoadResult.other (JValue.jarr [JValue.jnum "1", JValue.jnum "2"]) := by
  refine ⟨rfl, c6_load_recovers_amended.2.1 "garbage" rfl, rfl, rfl,
    c6_load_recovers_amended.2.2 "[1, 2]" _ rfl rfl⟩

/-- Validation linking the two persistence models: content written by
`_save_cache` decodes through the full JSON parser to the mapping it
serialized. -/
theorem loadCache_dumpCache_example :
    loadCache (some (dumpCache [("k", "v")])) = LoadResult.mapping [("k", "v")] := rfl

/-! ## Claim C8 — save/load round-trip -/

/-- Claim C8: writing any in-memory mapping with `_save_cache`'s
serialization and reading it back with `_load_cache`'s parser reproduces
the same mapping, for every mapping of zero or more string entries. -/
theorem c8_save_load_roundtrip (m : Cache) :
    parseCache (dumpCache m) = some m ∧ loadOf (some (dumpCache m)) = m := by
  refine ⟨parseCache_dump m, ?b⟩
  simp [loadOf, parseCache_dump]

/-! ## Claim C10 — returned paths and the .mp3 suffix -/

/-- Claim C10 as stated is false: a cache hit returns the stored path
verbatim, and a store pre-populated with a path that does not end in
`.mp3` (for example a hand-edited `.cache.json`) makes a successful
`speak` call return that path unchanged. -/
theorem c10_mp3_counterexample :
    (speak true cfgDefault [(keyB, "samples/old.wav")] ["samples/old.wav"]
      "20260101120000" "Bonjour" none (some false) false).result = some "samples/old.wav" ∧
    pyEndsWith "samples/old.wav" ".mp3" = false := by
  constructor
  · rw [speak_hit true cfgDefault _ _ _ _ none (some false) "samples/old.wav" rfl
      (by simp [dictFind, keyB]) (by decide)]
  · decide

/-- Claim C10 amended: every `speak` call that actually invokes the
synthesis collaborator and completes successfully returns a path ending in
`.mp3` — auto-generated filenames carry the suffix and a caller-supplied
filename lacking it has `.mp3` appended; only the cache-hit path can
return a suffix-free path, when the store was populated externally. -/
theorem c10_mp3_amended (ok : Bool) (cfg : TTSConfig) (cache : Cache) (fs : List String)
    (now text : String) (fn : Option String) (pl : Option Bool) (force : Bool) (p : String)
    (hres : (speak ok cfg cache fs now text fn pl force).result = some p)
    (hsyn : (speak ok cfg cache fs now text fn pl force).events.filter isSynthEv ≠ []) :
    pyEndsWith p ".mp3" = true := by
  by_cases hg : (cfg.useCache && !force && (dictFind cache (getCacheKey cfg text)).isSome) = true
  · have hu : cfg.useCache = true := by
      have := hg
      simp only [Bool.and_eq_true] at this
      exact this.1.1
    have hforce : force = false := by
      have := hg
      simp only [Bool.and_eq_true] at this
      cases force
      · rfl
      · simp at this
    subst hforce
    have hsome : (dictFind cache (getCacheKey cfg text)).isSome = true := by
      simp only [Bool.and_eq_true] at hg
      exact hg.2
    obtain ⟨F, hF⟩ := Option.isSome_iff_exists.1 hsome
    by_cases hc : fs.contains F = true
    · rw [speak_hit ok cfg cache fs now text fn pl F hu hF hc] at hsyn
      exfalso
      apply hsyn
      cases hb : pl.getD cfg.autoPlay <;> simp [isSynthEv]
    · rw [speak_stale ok cfg cache fs now text fn pl F hu hF (by simpa using hc)] at hres
      cases ok with
      | false =>
        rw [speakGen_fail] at hres
        exact absurd hres (by simp)
      | true =>
        rw [speakGen_ok_cache _ _ _ _ _ _ _ _ hu] at hres
        have hp : p = outputPathOf cfg now text fn := by
          simpa using hres.symm
        rw [hp]
        exact outputPathOf_endsWith cfg now text fn
  · rw [speak_miss ok cfg cache fs now text fn pl force (by simpa using hg)] at hres
    cases ok with
    | false =>
      rw [speakGen_fail] at hres
      exact absurd hres (by simp)
    | true =>
      by_cases hu : cfg.useCache = true
      · rw [speakGen_ok_cache _ _ _ _ _ _ _ _ hu] at hres
        have hp : p = outputPathOf cfg now text fn := by
          simpa using hres.symm
        rw [hp]
        exact outputPathOf_endsWith cfg now text fn
      · rw [speakGen_ok_nocache _ _ _ _ _ _ _ _ (by simpa using hu)] at hres
        have hp : p = outputPathOf cfg now text fn := by
          simpa using hres.symm
        rw [hp]
        exact outputPathOf_endsWith cfg now text fn

/-- Witness for the amended C10: a fresh synthesis in the default session
returns a path ending in `.mp3`. -/
theorem c10_mp3_amended_witness :
    (speak true cfgDefault [] [] "20260101120000" "Bonjour" none (some false) false).result =
      some (outputPathOf cfgDefault "20260101120000" "Bonjour" none) ∧
    pyEndsWith (outputPathOf cfgDefault "20260101120000" "Bonjour" none) ".mp3" = true := by
  have hres : (speak true cfgDefault [] [] "20260101120000" "Bonjour" none
      (some false) false).result =
      some (outputPathOf cfgDefault "20260101120000" "Bonjour" none) := by
    rw [speak_miss true cfgDefault [] [] "20260101120000" "Bonjour" none (some false) false
      (by simp [dictFind]), speakGen_ok_cache _ _ _ _ _ _ _ _ rfl]
  refine ⟨hres, ?b⟩
  refine c10_mp3_amended true cfgDefault [] [] "20260101120000" "Bonjour" none
    (some false) false _ hres ?hs
  rw [speak_miss true cfgDefault [] [] "20260101120000" "Bonjour" none (some false) false
    (by simp [dictFind]), speakGen_ok_cache _ _ _ _ _ _ _ _ rfl]
  simp [isSynthEv]

/-! ## Claim C3 — synchronous persistence of cache mutations -/

theorem checkSyncWith_append_nonmut (isMut : Event → Bool) (pre rest : List Event)
    (c : Cache) (d : Option String) (h : ∀ e ∈ pre, isMut e = false) :
    checkSyncWith isMut c d (pre ++ rest) =
      checkSyncWith isMut (replayMem c pre) (replayDisk d pre) rest := by
  induction pre generalizing c d with
  | nil => simp [replayMem, replayDisk]
  | cons e t ih =>
    have he := h e (List.mem_cons_self e t)
    rw [List.cons_append, checkSyncWith.eq_def]
    simp only [he, Bool.false_eq_true, if_false]
    rw [ih _ _ fun x hx => h x (List.mem_cons_of_mem e hx)]
    simp [replayMem, replayDisk]

theorem checkSyncIns_ins_save (c : Cache) (d : Option String) (key P : String)
    (tail : List Event) (htail : ∀ e ∈ tail, isInsClearEv e = false) :
    checkSyncWith isInsClearEv c d
      (Event.insEntry key P ::
        Event.saveFile (dumpCache (dictInsert c key P)) :: tail) = true := by
  rw [checkSyncWith.eq_def]
  simp only [isInsClearEv, if_true]
  have hr2 : checkSyncWith isInsClearEv (dictInsert c key P)
      (some (dumpCache (dictInsert c key P))) tail = true :=
    checkSyncWith_of_noMut _ _ _ _ htail
  simp [applyMem, applyDisk, isPersistEv, loadOf, parseCache_dump, hr2]

theorem speakGen_checkSyncIns (ok : Bool) (cfg : TTSConfig) (c : Cache) (pre : List Event)
    (key now text : String) (fn : Option String) (play : Bool) (c0 : Cache) (d : Option String)
    (hpre : ∀ e ∈ pre, isInsClearEv e = false)
    (hmem : replayMem c0 pre = c) :
    checkSyncWith isInsClearEv c0 d (speakGen ok cfg c pre key now text fn play).events = true := by
  cases ok with
  | false =>
    rw [speakGen_fail]
    refine checkSyncWith_of_noMut _ _ _ _ ?h
    intro e he
    rcases List.mem_append.1 he with h1 | h1
    · exact hpre e h1
    · simp only [List.mem_singleton] at h1
      subst h1
      rfl
  | true =>
    by_cases hu : cfg.useCache = true
    · rw [speakGen_ok_cache _ _ _ _ _ _ _ _ hu]
      have hev : pre ++ Event.synthesize text cfg.voice cfg.rate cfg.volume
            (outputPathOf cfg now text fn) ::
          Event.insEntry key (outputPathOf cfg now text fn) ::
          Event.saveFile (dumpCache (dictInsert c key (outputPathOf cfg now text fn))) ::
          (if play then [Event.play (outputPathOf cfg now text fn)] else []) =
          (pre ++ [Event.synthesize text cfg.voice cfg.rate cfg.volume
            (outputPathOf cfg now text fn)]) ++
          (Event.insEntry key (outputPathOf cfg now text fn) ::
            Event.saveFile (dumpCache (dictInsert c key (outputPathOf cfg now text fn))) ::
            (if play then [Event.play (outputPathOf cfg now text fn)] else [])) := by
        simp
      rw [hev, checkSyncWith_append_nonmut]
      · have hm2 : replayMem c0 (pre ++ [Event.synthesize text cfg.voice cfg.rate cfg.volume
            (outputPathOf cfg now text fn)]) = c := by
          simp [replayMem, List.foldl_append, applyMem]
          simpa [replayMem] using hmem
        rw [hm2]
        exact checkSyncIns_ins_save c _ key _ _ (playEvents_noMut _ _)
      · intro e he
        rcases List.mem_append.1 he with h1 | h1
        · exact hpre e h1
        · simp only [List.mem_singleton] at h1
          subst h1
          rfl
    · rw [speakGen_ok_nocache _ _ _ _ _ _ _ _ (by simpa using hu)]
      refine checkSyncWith_of_noMut _ _ _ _ ?h
      intro e he
      rcases List.mem_append.1 he with h1 | h1
      · exact hpre e h1
      · rcases List.mem_cons.1 h1 with h2 | h2
        · subst h2
          rfl
        · exact playEvents_noMut _ _ e h2

theorem speak_checkSyncIns (ok : Bool) (cfg : TTSConfig) (cache : Cache) (fs : List String)
    (now text : String) (fn : Option String) (pl : Option Bool) (force : Bool)
    (d : Option String) :
    checkSyncIns cache d (speak ok cfg cache fs now text fn pl force).events = true := by
  unfold checkSyncIns
  by_cases hg : (cfg.useCache && !force && (dictFind cache (getCacheKey cfg text)).isSome) = true
  · have hu : cfg.useCache = true := by
      simp only [Bool.and_eq_true] at hg
      exact hg.1.1
    have hforce : force = false := by
      simp only [Bool.and_eq_true] at hg
      cases force
      · rfl
      · simp at hg
    subst hforce
    have hsome : (dictFind cache (getCacheKey cfg text)).isSome = true := by
      simp only [Bool.and_eq_true] at hg
      exact hg.2
    obtain ⟨F, hF⟩ := Option.isSome_iff_exists.1 hsome
    by_cases hc : fs.contains F = true
    · rw [speak_hit ok cfg cache fs now text fn pl F hu hF hc]
      exact checkSyncWith_of_noMut _ _ _ _ (playEvents_noMut _ _)
    · rw [speak_stale ok cfg cache fs now text fn pl F hu hF (by simpa using hc)]
      refine speakGen_checkSyncIns ok cfg _ _ _ now text fn _ cache d ?hp ?hm
      · intro e he
        simp only [List.mem_singleton] at he
        subst he
        rfl
      · simp [replayMem, applyMem]
  · rw [speak_miss ok cfg cache fs now text fn pl force (by simpa using hg)]
    exact speakGen_checkSyncIns ok cfg cache [] _ now text fn _ cache d
      (fun e he => absurd he (List.not_mem_nil e)) rfl

theorem speak_final_consistency (cfg : TTSConfig) (cache : Cache) (fs : List String)
    (now text : String) (fn : Option String) (pl : Option Bool) (force : Bool)
    (d : Option String) (hd : loadOf d = cache) :
    loadOf (replayDisk d (speak true cfg cache fs now text fn pl force).events) =
      (speak true cfg cache fs now text fn pl force).cache := by
  by_cases hg : (cfg.useCache && !force && (dictFind cache (getCacheKey cfg text)).isSome) = true
  · have hu : cfg.useCache = true := by
      simp only [Bool.and_eq_true] at hg
      exact hg.1.1
    have hforce : force = false := by
      simp only [Bool.and_eq_true] at hg
      cases force
      · rfl
      · simp at hg
    subst hforce
    have hsome : (dictFind cache (getCacheKey cfg text)).isSome = true := by
      simp only [Bool.and_eq_true] at hg
      exact hg.2
    obtain ⟨F, hF⟩ := Option.isSome_iff_exists.1 hsome
    by_cases hc : fs.contains F = true
    · rw [speak_hit true cfg cache fs now text fn pl F hu hF hc]
      rw [replayDisk_noPersist _ _ (playEvents_noPersist _ _)]
      exact hd
    · rw [speak_stale true cfg cache fs now text fn pl F hu hF (by simpa using hc),
        speakGen_ok_cache _ _ _ _ _ _ _ _ hu]
      cases hb : pl.getD cfg.autoPlay <;>
        simp [replayDisk, applyDisk, loadOf, parseCache_dump, hb]
  · rw [speak_miss true cfg cache fs now text fn pl force (by simpa using hg)]
    by_cases hu : cfg.useCache = true
    · rw [speakGen_ok_cache _ _ _ _ _ _ _ _ hu]
      cases hb : pl.getD cfg.autoPlay <;>
        simp [replayDisk, applyDisk, loadOf, parseCache_dump, hb]
    · rw [speakGen_ok_nocache _ _ _ _ _ _ _ _ (by simpa using hu)]
      cases hb : pl.getD cfg.autoPlay <;>
        simp [replayDisk, applyDisk, hb, hd]

/-- Claim C3 as stated is false for the stale-entry deletion: in the
source, `del self.cache[cache_key]` (main.py line 173) is not followed by
a persist — the next event is the synthesis invocation, and the cache file
is only rewritten by the save that follows the insert.  On a concrete
store holding a stale entry, with the on-disk file initially matching the
store, the trace of a successful `speak` fails the every-mutation-is-
synchronously-persisted check. -/
theorem c3_persist_counterexample :
    checkSyncAll [(keyB, "samples/gone.mp3")]
      (some (dumpCache [(keyB, "samples/gone.mp3")]))
      (speak true cfgDefault [(keyB, "samples/gone.mp3")] [] "20260101120000" "Bonjour"
        none (some false) false).events = false := by
  rw [speak_stale true cfgDefault [(keyB, "samples/gone.mp3")] [] "20260101120000" "Bonjour"
      none (some false) "samples/gone.mp3" rfl (by simp [dictFind, keyB]) (by decide),
    speakGen_ok_cache _ _ _ _ _ _ _ _ rfl]
  rw [checkSyncAll, checkSyncWith.eq_def]
  simp [isMutEv, applyMem, applyDisk, loadOf, parseCache_dump, isPersistEv, dictErase, keyB]

/-- Claim C3 amended: the insert after a successful synthesis and the
clear operation are synchronously persisted (immediately after each, the
persisted file reloads to the in-memory mapping); the stale-entry deletion
is not persisted at deletion time — it reaches the disk only through the
save that follows the insert later in the same call — but any `speak`
call whose synthesis succeeds, started from a consistent state, ends with
the on-disk mapping equal to the in-memory mapping, as does `clear`. -/
theorem c3_persist_amended (ok : Bool) (cfg : TTSConfig) (cache : Cache) (fs : List String)
    (now text : String) (fn : Option String) (pl : Option Bool) (force : Bool)
    (c : Cache) (d : Option String) :
    checkSyncIns cache d (speak ok cfg cache fs now text fn pl force).events = true ∧
    checkSyncIns c d (clearCache c d).events = true ∧
    (ok = true → loadOf d = cache →
      loadOf (replayDisk d (speak ok cfg cache fs now text fn pl force).events) =
        (speak ok cfg cache fs now text fn pl force).cache) ∧
    loadOf (replayDisk d (clearCache c d).events) = (clearCache c d).cache := by
  refine ⟨speak_checkSyncIns ok cfg cache fs now text fn pl force d, ?clr, ?fin, ?clrfin⟩
  · cases d <;>
      simp [clearCache, checkSyncIns, checkSyncWith, applyMem, applyDisk, loadOf,
        isInsClearEv, isPersistEv]
  · intro hok hd
    subst hok
    exact speak_final_consistency cfg cache fs now text fn pl force d hd
  · cases d <;> simp [clearCache, replayDisk, applyDisk, loadOf]

/-- Witness for the amended C3: a fresh synthesis from an empty consistent
state leaves disk and memory equal. -/
theorem c3_persist_amended_witness :
    loadOf none = ([] : Cache) ∧
    loadOf (replayDisk none (speak true cfgDefault [] [] "20260101120000" "Bonjour"
        none (some false) false).events) =
      (speak true cfgDefault [] [] "20260101120000" "Bonjour" none (some false) false).cache := by
  refine ⟨rfl, ?b⟩
  exact (c3_persist_amended true cfgDefault [] [] "20260101120000" "Bonjour" none (some false)
    false [] none).2.2.1 rfl rfl

end LaFrance
